import Mathlib

/-!
Shallow embedding of the Waveshare 4.2 inch e-ink display driver
(src/modules/display/eink.py) and proofs about its specification.

Hardware interaction is modelled as a trace of events: GPIO line writes,
single-byte SPI writes, millisecond delays and busy-line waits.  Pure
helpers of the driver (pixel packing, plane-mask lookup, the per-byte
accumulation loop of display) are translated directly from the source.
-/

namespace EInk

/-- GPIO pin for the CS (Chip Select) line, named ENABLE in the source. -/
def ENABLE : Nat := 8
/-- GPIO pin for the RST (hardware reset) line. -/
def RESET : Nat := 17
/-- GPIO pin for the BUSY input line. -/
def BUSY : Nat := 24
/-- GPIO pin for the DC (Data Command) line, named MODE in the source. -/
def MODE : Nat := 25
/-- GPIO pin for the status LED. -/
def LED : Nat := 27

/-- Display width in pixels. -/
def WIDTH : Nat := 400
/-- Display height in pixels. -/
def HEIGHT : Nat := 300

/-- Shades of gray, from black to white, as in Display.SHADE. -/
def SHADE : List Nat := [0x00, 0x40, 0x80, 0xC0]
/-- Shade constant BLACK = SHADE[0]. -/
def BLACK : Nat := 0x00
/-- Shade constant DARK = SHADE[1]. -/
def DARK : Nat := 0x40
/-- Shade constant LIGHT = SHADE[2]. -/
def LIGHT : Nat := 0x80
/-- Shade constant WHITE = SHADE[3]. -/
def WHITE : Nat := 0xC0

/-- Observable hardware events emitted by the driver: a GPIO line write, a
single-byte SPI write, a millisecond delay, or one invocation of the busy
handshake. -/
inductive Event where
  | line (pin value : Nat)
  | spiWrite (byte : Nat)
  | sleepMs (ms : Nat)
  | waitBusy
  deriving DecidableEq

/-- A grayscale PIL image: a size and an 8-bit sample at each coordinate. -/
structure Image where
  width : Nat
  height : Nat
  px : Nat → Nat → Nat

/-- PIL Image.getpixel: a negative coordinate is wrapped once by adding the
corresponding dimension; a coordinate still out of range raises IndexError,
modelled as none. -/
def getpixel (img : Image) (x y : Int) : Option Nat :=
  let x := if x < 0 then x + img.width else x
  let y := if y < 0 then y + img.height else y
  if 0 ≤ x ∧ x < (img.width : Int) ∧ 0 ≤ y ∧ y < (img.height : Int) then
    some (img.px x.toNat y.toNat)
  else none

/-- Body of the packing loop of Display._get_buffer: the byte stored at index
(i + j * WIDTH) / 4, built from the pixels at columns i-3, i-2, i-1, i. -/
def get_buffer_byte (img : Image) (i j : Nat) : Option Nat := do
  let p0 ← getpixel img ((i : Int) - 3) (j : Int)
  let p1 ← getpixel img ((i : Int) - 2) (j : Int)
  let p2 ← getpixel img ((i : Int) - 1) (j : Int)
  let p3 ← getpixel img ((i : Int) - 0) (j : Int)
  pure ((p0 &&& 0xC0) >>> 0 ||| (p1 &&& 0xC0) >>> 2 |||
        (p2 &&& 0xC0) >>> 4 ||| (p3 &&& 0xC0) >>> 6)

/-- Index assigned by Display._get_buffer for row j and group start column i. -/
def bufferIndex (i j : Nat) : Nat := (i + j * WIDTH) / 4

/-- Display._get_buffer: the loops fill index (i + j*400)/4 = i/4 + 100*j for
j = 0..299 and i = 0, 4, ..., 396, so entry n holds the byte for row n / 100
and group start column (n % 100) * 4; entries are produced in index order and
the first failing pixel access aborts the whole conversion. -/
def get_buffer (img : Image) : Option (List Nat) :=
  (List.range (WIDTH * HEIGHT / 4)).mapM
    (fun n => get_buffer_byte img (n % 100 * 4) (n / 100))

/-- Display._get_masks, with the implicit Python fall-through return None
modelled as none. -/
def get_masks (data : Nat) : Option (Nat × Nat) :=
  let masked := data &&& 0xC0
  if masked = 0xC0 then some (0x01, 0x01)
  else if masked = 0x80 then some (0x01, 0x00)
  else if masked = 0x40 then some (0x00, 0x01)
  else if masked = 0x00 then some (0x00, 0x00)
  else none

/-- Body of the inner k-loop of Display.display.  chunk is a numpy uint8, so
its left shifts wrap modulo 256; byte1 and byte2 are plain Python ints. -/
def loopK (j k : Nat) (chunk byte1 byte2 : Nat) : Option (Nat × Nat × Nat) := do
  let m ← get_masks chunk
  let byte1 := byte1 ||| m.1
  let byte2 := byte2 ||| m.2
  let byte1 := byte1 <<< 1
  let byte2 := byte2 <<< 1
  let chunk := (chunk <<< 2) % 256
  let m2 ← get_masks chunk
  let byte1 := byte1 ||| m2.1
  let byte2 := byte2 ||| m2.2
  let byte1 := if j ≠ 1 ∨ k ≠ 1 then byte1 <<< 1 else byte1
  let byte2 := if j ≠ 1 ∨ k ≠ 1 then byte2 <<< 1 else byte2
  let chunk := (chunk <<< 2) % 256
  pure (chunk, byte1, byte2)

/-- Body of the j-loop of Display.display: chunk is loaded from the packed
buffer at the start of each iteration, the two accumulators persist. -/
def loopJ (j : Nat) (chunk byte1 byte2 : Nat) : Option (Nat × Nat) := do
  let r0 ← loopK j 0 chunk byte1 byte2
  let r1 ← loopK j 1 r0.1 r0.2.1 r0.2.2
  pure (r1.2.1, r1.2.2)

/-- One iteration of the outer i-loop of Display.display: from the two packed
bytes buffer[2i] and buffer[2i+1] build data1[i] and data2[i]. -/
def displayByte (b1 b2 : Nat) : Option (Nat × Nat) := do
  let r0 ← loopJ 0 (b1 % 256) 0 0
  loopJ 1 (b2 % 256) r0.1 r0.2

/-- The plane-building loop of Display.display, producing data1 and data2. -/
def get_planes (buf : List Nat) : Option (List Nat × List Nat) := do
  let pairs ← (List.range (WIDTH * HEIGHT / 8)).mapM
    (fun i => displayByte (buf.getD (i * 2) 0) (buf.getD (i * 2 + 1) 0))
  pure (pairs.map Prod.fst, pairs.map Prod.snd)

/-- One gpio.output call. -/
def output (pin value : Nat) : List Event := [.line pin value]

/-- One spi.writebytes call with a single byte. -/
def writebyte (b : Nat) : List Event := [.spiWrite b]

/-- One time.sleep call, in milliseconds. -/
def delay (ms : Nat) : List Event := [.sleepMs ms]

/-- Display._send: command mode, enable, command byte, data mode, the data
bytes one writebytes call each, disable, then one handshake wait. -/
def send (command : Nat) (data : List Nat) : List Event :=
  output MODE 0 ++ output ENABLE 0 ++ writebyte command ++
  output MODE 1 ++ (data.map writebyte).flatten ++
  output ENABLE 1 ++ [.waitBusy]

/-- Display._reset: the 0.2 second delays are written as 200 ms. -/
def reset : List Event :=
  output RESET 1 ++ delay 200 ++
  output RESET 0 ++ delay 200 ++
  output RESET 1 ++ delay 200

/-- COMMON VOLTAGE LUT payload (opcode 0x20). -/
def lut_vcom : List Nat :=
  [0x00, 0x0A, 0x00, 0x00, 0x00, 0x01, 0x60, 0x14,
   0x14, 0x00, 0x00, 0x01, 0x00, 0x14, 0x00, 0x00,
   0x00, 0x01, 0x00, 0x13, 0x0A, 0x01, 0x00, 0x01,
   0x00, 0x00, 0x00, 0x00, 0x00, 0x00, 0x00, 0x00,
   0x00, 0x00, 0x00, 0x00, 0x00, 0x00, 0x00, 0x00,
   0x00, 0x00]

/-- WHITE TO WHITE LUT payload (opcode 0x21). -/
def lut_ww : List Nat :=
  [0x40, 0x0A, 0x00, 0x00, 0x00, 0x01, 0x90, 0x14,
   0x14, 0x00, 0x00, 0x01, 0x10, 0x14, 0x0A, 0x00,
   0x00, 0x01, 0xA0, 0x13, 0x01, 0x00, 0x00, 0x01,
   0x00, 0x00, 0x00, 0x00, 0x00, 0x00, 0x00, 0x00,
   0x00, 0x00, 0x00, 0x00, 0x00, 0x00, 0x00, 0x00,
   0x00, 0x00]

/-- BLACK TO WHITE LUT payload (opcode 0x22). -/
def lut_bw : List Nat :=
  [0x40, 0x0A, 0x00, 0x00, 0x00, 0x01, 0x90, 0x14,
   0x14, 0x00, 0x00, 0x01, 0x00, 0x14, 0x0A, 0x00,
   0x00, 0x01, 0x99, 0x0C, 0x01, 0x03, 0x04, 0x01,
   0x00, 0x00, 0x00, 0x00, 0x00, 0x00, 0x00, 0x00,
   0x00, 0x00, 0x00, 0x00, 0x00, 0x00, 0x00, 0x00,
   0x00, 0x00]

/-- WHITE TO BLACK LUT payload (opcode 0x23). -/
def lut_wb : List Nat :=
  [0x40, 0x0A, 0x00, 0x00, 0x00, 0x01, 0x90, 0x14,
   0x14, 0x00, 0x00, 0x01, 0x00, 0x14, 0x0A, 0x00,
   0x00, 0x01, 0x99, 0x0B, 0x04, 0x04, 0x01, 0x01,
   0x00, 0x00, 0x00, 0x00, 0x00, 0x00, 0x00, 0x00,
   0x00, 0x00, 0x00, 0x00, 0x00, 0x00, 0x00, 0x00,
   0x00, 0x00]

/-- BLACK TO BLACK LUT payload (opcode 0x24). -/
def lut_bb : List Nat :=
  [0x80, 0x0A, 0x00, 0x00, 0x00, 0x01, 0x90, 0x14,
   0x14, 0x00, 0x00, 0x01, 0x20, 0x14, 0x0A, 0x00,
   0x00, 0x01, 0x50, 0x13, 0x01, 0x00, 0x00, 0x01,
   0x00, 0x00, 0x00, 0x00, 0x00, 0x00, 0x00, 0x00,
   0x00, 0x00, 0x00, 0x00, 0x00, 0x00, 0x00, 0x00,
   0x00, 0x00]

/-- Display._init_lut: the five waveform table writes. -/
def init_lut : List Event :=
  send 0x20 lut_vcom ++ send 0x21 lut_ww ++ send 0x22 lut_bw ++
  send 0x23 lut_wb ++ send 0x24 lut_bb

/-- Display.wake: reset, eight configuration commands, then the LUTs. -/
def wake : List Event :=
  reset ++
  send 0x01 [0x03, 0x00, 0x2B, 0x2B, 0x13] ++
  send 0x06 [0x17, 0x17, 0x17] ++
  send 0x04 [] ++
  send 0x00 [0x3F] ++
  send 0x30 [0x3C] ++
  send 0x61 [0x01, 0x90, 0x01, 0x2C] ++
  send 0x82 [0x12] ++
  send 0x50 [0x97] ++
  init_lut

/-- The send transactions of Display.wake, as opcode and payload pairs. -/
def wake_cmds : List (Nat × List Nat) :=
  [(0x01, [0x03, 0x00, 0x2B, 0x2B, 0x13]),
   (0x06, [0x17, 0x17, 0x17]),
   (0x04, []),
   (0x00, [0x3F]),
   (0x30, [0x3C]),
   (0x61, [0x01, 0x90, 0x01, 0x2C]),
   (0x82, [0x12]),
   (0x50, [0x97]),
   (0x20, lut_vcom),
   (0x21, lut_ww),
   (0x22, lut_bw),
   (0x23, lut_wb),
   (0x24, lut_bb)]

/-- Display._EMPTY: numpy.full(WIDTH * HEIGHT / 8, WHITE), a buffer of 15000
bytes each holding the WHITE shade constant 0xC0. -/
def EMPTY : List Nat := List.replicate (WIDTH * HEIGHT / 8) WHITE

/-- Display.clear: send _EMPTY to 0x10 and 0x13, then refresh 0x12. -/
def clear : List Event :=
  send 0x10 EMPTY ++ send 0x13 EMPTY ++ send 0x12 []

/-- Display.sleep: power off, then deep sleep with the magic byte 0xA5. -/
def sleep : List Event :=
  send 0x02 [] ++ send 0x07 [0xA5]

/-- Python exceptions that Display.display can raise: TypeError when the
image is None, IndexError when a pixel access is out of range even after
wrapping, and the TypeError that subscripting the None returned by the
_get_masks fall-through would raise. -/
inductive Err where
  | noneImage
  | indexOutOfRange
  | maskFallthrough
  deriving DecidableEq

/-- Display.display: reject None, convert the image to the packed buffer,
accumulate the two bit-planes, then send plane 1 to opcode 0x10, plane 2 to
opcode 0x13 and refresh with opcode 0x12.  All pixel reads happen before the
first byte is sent, so a raised error produces no hardware traffic. -/
def display (image : Option Image) : Except Err (List Event) :=
  match image with
  | none => .error .noneImage
  | some img =>
    match get_buffer img with
    | none => .error .indexOutOfRange
    | some buf =>
      match get_planes buf with
      | none => .error .maskFallthrough
      | some (data1, data2) =>
        .ok (send 0x10 data1 ++ send 0x13 data2 ++ send 0x12 [])

/-- Public operations of the driver. -/
inductive Op where
  | wake
  | display (image : Option Image)
  | clear
  | sleep

/-- Trace or error of a single public operation.  The source class keeps no
software state apart from the hardware handles, so each operation's
behaviour is a function of its arguments alone. -/
def step : Op → Except Err (List Event)
  | .wake => .ok wake
  | .display image => display image
  | .clear => .ok clear
  | .sleep => .ok sleep

/-- Sequential execution of public operations: traces concatenate and the
first raised error aborts the run. -/
def run : List Op → Except Err (List Event)
  | [] => .ok []
  | op :: rest =>
    match step op with
    | .error e => .error e
    | .ok t =>
      match run rest with
      | .error e => .error e
      | .ok t2 => .ok (t ++ t2)

/-- The while loop of Display._wait, polling a scripted busy line, with
explicit fuel.  Poll p of the loop reads busy p; while it reads 0 the LED is
toggled and the loop sleeps 50 ms.  none means the fuel ran out before the
busy line read ready. -/
def wait_loop (busy : Nat → Nat) (p state fuel : Nat) : Option (List Event) :=
  match fuel with
  | 0 => none
  | fuel + 1 =>
    if busy p = 0 then
      match wait_loop busy (p + 1) (state ^^^ 1) fuel with
      | none => none
      | some evs => some (output LED (state ^^^ 1) ++ delay 50 ++ evs)
    else some []

/-- Display._wait: LED off and a 50 ms settle delay, the polling loop, then
LED on and one more 50 ms delay. -/
def wait (busy : Nat → Nat) (fuel : Nat) : Option (List Event) :=
  match wait_loop busy 0 0 fuel with
  | none => none
  | some evs => some (output LED 0 ++ delay 50 ++ evs ++ output LED 1 ++ delay 50)

/-- Concrete 400 x 300 image whose only nonzero pixel is 0xC0 at (4, 0). -/
def imgC1 : Image := ⟨400, 300, fun x y => if x = 4 ∧ y = 0 then 0xC0 else 0⟩

/-- Concrete 400 x 300 image with every pixel 137. -/
def imgGray : Image := ⟨400, 300, fun _ _ => 137⟩

/-- Concrete 400 x 300 image with every pixel 0xFF. -/
def imgWhite : Image := ⟨400, 300, fun _ _ => 0xFF⟩

/-- Concrete 400 x 300 image with every pixel 0. -/
def imgBlack : Image := ⟨400, 300, fun _ _ => 0⟩

/-- Concrete mis-sized image: 401 x 300, every pixel 0. -/
def img401 : Image := ⟨401, 300, fun _ _ => 0⟩

/-- Concrete mis-sized image: 10 x 10, every pixel 0. -/
def img10 : Image := ⟨10, 10, fun _ _ => 0⟩

/-- Scripted busy line that reads ready from the third poll on. -/
def busyAfter2 : Nat → Nat := fun k => if k < 2 then 0 else 1

/-- Scripted busy line that never reads ready. -/
def busyNever : Nat → Nat := fun _ => 0

/-! Helper lemmas about the encoder. -/

set_option maxRecDepth 10000

/-- Bitwise or with a single bit adds it when the target is even. -/
theorem or_two (b a : Nat) (ha : a < 2) (hb : b % 2 = 0) : b ||| a = b + a := by
  obtain ⟨k, rfl⟩ : ∃ k, b = 2 * k := ⟨b / 2, by omega⟩
  interval_cases a
  · simp
  · have h := Nat.lor_bit false k true 0
    simpa [Nat.bit] using h

/-- One shift-and-or accumulation step. -/
theorem acc_step (b a : Nat) (ha : a < 2) : b <<< 1 ||| a = 2 * b + a := by
  rw [Nat.shiftLeft_eq, pow_one, or_two (b * 2) a ha (by omega)]
  ring

/-- Characterization of Display._get_masks on 8-bit inputs: the fall-through
never fires and the two mask bits are bits 7 and 6 of the input. -/
theorem gm_char : ∀ c < 256, get_masks c = some (c >>> 7 &&& 1, c >>> 6 &&& 1) := by decide

/-- Normal form of one k-loop iteration of Display.display. -/
theorem loopK_eval (j k chunk b1 b2 : Nat) (hc : chunk < 256) :
    loopK j k chunk b1 b2 = some ((chunk <<< 2 % 256) <<< 2 % 256,
      if j ≠ 1 ∨ k ≠ 1 then
        ((b1 ||| (chunk >>> 7 &&& 1)) <<< 1 ||| ((chunk <<< 2 % 256) >>> 7 &&& 1)) <<< 1
      else (b1 ||| (chunk >>> 7 &&& 1)) <<< 1 ||| ((chunk <<< 2 % 256) >>> 7 &&& 1),
      if j ≠ 1 ∨ k ≠ 1 then
        ((b2 ||| (chunk >>> 6 &&& 1)) <<< 1 ||| ((chunk <<< 2 % 256) >>> 6 &&& 1)) <<< 1
      else (b2 ||| (chunk >>> 6 &&& 1)) <<< 1 ||| ((chunk <<< 2 % 256) >>> 6 &&& 1)) := by
  simp only [loopK, bind, Option.bind]
  rw [gm_char chunk hc, gm_char (chunk <<< 2 % 256) (Nat.mod_lt _ (by omega))]
  rfl

/-- Shifting a wrapped uint8 left by two moves bit 5 to bit 7. -/
theorem sb7 (c : Nat) : (c <<< 2 % 256) >>> 7 % 2 = c >>> 5 % 2 := by
  simp only [Nat.shiftLeft_eq, Nat.shiftRight_eq_div_pow]
  norm_num
  omega

/-- Shifting a wrapped uint8 left by two moves bit 4 to bit 6. -/
theorem sb6 (c : Nat) : (c <<< 2 % 256) >>> 6 % 2 = c >>> 4 % 2 := by
  simp only [Nat.shiftLeft_eq, Nat.shiftRight_eq_div_pow]
  norm_num
  omega

/-- Shifting a wrapped uint8 left by two moves bit 3 to bit 5. -/
theorem sb5 (c : Nat) : (c <<< 2 % 256) >>> 5 % 2 = c >>> 3 % 2 := by
  simp only [Nat.shiftLeft_eq, Nat.shiftRight_eq_div_pow]
  norm_num
  omega

/-- Shifting a wrapped uint8 left by two moves bit 2 to bit 4. -/
theorem sb4 (c : Nat) : (c <<< 2 % 256) >>> 4 % 2 = c >>> 2 % 2 := by
  simp only [Nat.shiftLeft_eq, Nat.shiftRight_eq_div_pow]
  norm_num
  omega

/-- Shifting a wrapped uint8 left by two moves bit 1 to bit 3. -/
theorem sb3 (c : Nat) : (c <<< 2 % 256) >>> 3 % 2 = c >>> 1 % 2 := by
  simp only [Nat.shiftLeft_eq, Nat.shiftRight_eq_div_pow]
  norm_num
  omega

/-- Shifting a wrapped uint8 left by two moves bit 0 to bit 2. -/
theorem sb2 (c : Nat) : (c <<< 2 % 256) >>> 2 % 2 = c % 2 := by
  simp only [Nat.shiftLeft_eq, Nat.shiftRight_eq_div_pow]
  norm_num
  omega

/-- Closed form of one iteration of the display loop: the two produced bytes
collect, most significant bit first, the high and the low bit of each of the
eight 2-bit codes of the two packed input bytes, in scan order. -/
theorem displayByte_eval (c1 c2 : Nat) (h1 : c1 < 256) (h2 : c2 < 256) :
    displayByte c1 c2 =
    some (128 * (c1 >>> 7 &&& 1) + 64 * (c1 >>> 5 &&& 1) + 32 * (c1 >>> 3 &&& 1) +
          16 * (c1 >>> 1 &&& 1) + 8 * (c2 >>> 7 &&& 1) + 4 * (c2 >>> 5 &&& 1) +
          2 * (c2 >>> 3 &&& 1) + (c2 >>> 1 &&& 1),
          128 * (c1 >>> 6 &&& 1) + 64 * (c1 >>> 4 &&& 1) + 32 * (c1 >>> 2 &&& 1) +
          16 * (c1 &&& 1) + 8 * (c2 >>> 6 &&& 1) + 4 * (c2 >>> 4 &&& 1) +
          2 * (c2 >>> 2 &&& 1) + (c2 &&& 1)) := by
  have hm : ∀ x : Nat, x <<< 2 % 256 < 256 := fun x => Nat.mod_lt _ (by omega)
  simp only [displayByte, loopJ, bind, Option.bind]
  rw [Nat.mod_eq_of_lt h1, Nat.mod_eq_of_lt h2]
  rw [loopK_eval 0 0 c1 0 0 h1]
  dsimp only
  rw [loopK_eval 0 1 _ _ _ (hm _)]
  dsimp only
  rw [loopK_eval 1 0 c2 _ _ h2]
  dsimp only
  rw [loopK_eval 1 1 _ _ _ (hm _)]
  dsimp only
  norm_num
  simp only [sb7, sb6, sb5, sb4, sb3, sb2, Nat.shiftRight_zero]
  refine ⟨?_, ?_⟩ <;>
  · rw [acc_step _ _ (by omega), acc_step _ _ (by omega), acc_step _ _ (by omega),
        acc_step _ _ (by omega), acc_step _ _ (by omega), acc_step _ _ (by omega),
        acc_step _ _ (by omega)]
    omega

/-! Helper lemmas about pixel packing. -/

/-- Evaluation of getpixel at the offsets used by the packing loop: column
i - d with d at most 3 resolves, after the negative-coordinate wrap, to
column (i + (400 - d)) mod 400 of the same row. -/
theorem getpixel_eval (img : Image) (hw : img.width = 400) (hh : img.height = 300)
    (i j d : Nat) (hi : i < 400) (hj : j < 300) (hd : d ≤ 3) :
    getpixel img ((i : Int) - d) (j : Int) = some (img.px ((i + (400 - d)) % 400) j) := by
  simp only [getpixel, hw, hh]
  push_cast
  have hx : (if (i : Int) - d < 0 then (i : Int) - d + 400 else (i : Int) - d).toNat =
      (i + (400 - d)) % 400 := by
    split <;> omega
  have hy : (if (j : Int) < 0 then (j : Int) + 300 else (j : Int)).toNat = j := by
    split <;> omega
  rw [if_pos]
  · rw [hx, hy]
  · constructor
    · split <;> omega
    · refine ⟨?_, ?_, ?_⟩
      · split <;> omega
      · split <;> omega
      · split <;> omega

/-- Shifted top-two-bit masks of an 8-bit value, as arithmetic. -/
theorem pack_terms : ∀ p < 256, (p &&& 192) >>> 0 = p / 64 * 64 ∧ (p &&& 192) >>> 2 = p / 64 * 16 ∧
    (p &&& 192) >>> 4 = p / 64 * 4 ∧ (p &&& 192) >>> 6 = p / 64 := by decide

/-- Combining the four disjoint 2-bit fields of a packed byte is addition. -/
theorem or4 : ∀ a < 4, ∀ b < 4, ∀ c < 4, ∀ d < 4,
    a * 64 ||| b * 16 ||| c * 4 ||| d = a * 64 + b * 16 + c * 4 + d := by decide

/-- Closed form of the byte packed for row j and group start column i: the
top two bits of the pixels at columns (i+397) mod 400, (i+398) mod 400,
(i+399) mod 400 and i, at bit offsets 6, 4, 2 and 0. -/
theorem get_buffer_byte_eval (img : Image) (hw : img.width = 400) (hh : img.height = 300)
    (hp : ∀ x y, img.px x y < 256) (i j : Nat) (hi : i < 400) (hj : j < 300) :
    get_buffer_byte img i j =
    some (img.px ((i + 397) % 400) j / 64 * 64 + img.px ((i + 398) % 400) j / 64 * 16 +
          img.px ((i + 399) % 400) j / 64 * 4 + img.px i j / 64) := by
  have k3 := getpixel_eval img hw hh i j 3 hi hj (by omega)
  have k2 := getpixel_eval img hw hh i j 2 hi hj (by omega)
  have k1 := getpixel_eval img hw hh i j 1 hi hj (by omega)
  have k0 := getpixel_eval img hw hh i j 0 hi hj (by omega)
  norm_num at k3 k2 k1 k0
  rw [Nat.mod_eq_of_lt hi] at k0
  simp only [get_buffer_byte, bind, Option.bind, Int.sub_zero, k3, k2, k1, k0]
  have e3 := (pack_terms (img.px ((i + 397) % 400) j) (hp _ _)).1
  have e2 := (pack_terms (img.px ((i + 398) % 400) j) (hp _ _)).2.1
  have e1 := (pack_terms (img.px ((i + 399) % 400) j) (hp _ _)).2.2.1
  have e0 := (pack_terms (img.px i j) (hp _ _)).2.2.2
  rw [e3, e2, e1, e0]
  rw [or4 _ (by have := hp ((i + 397) % 400) j; omega) _ (by have := hp ((i + 398) % 400) j; omega)
        _ (by have := hp ((i + 399) % 400) j; omega) _ (by have := hp i j; omega)]
  rfl

/-! Helper lemmas about lists and whole-buffer evaluation. -/

/-- List.mapM over Option succeeds when the function succeeds pointwise. -/
theorem mapM_eq_some_map {α β : Type} (f : α → Option β) (g : α → β) :
    ∀ l : List α, (∀ x ∈ l, f x = some (g x)) → l.mapM f = some (l.map g) := by
  intro l
  induction l with
  | nil => intro _; rfl
  | cons x xs ih =>
    intro h
    rw [List.mapM_cons, h x (by simp), ih (fun y hy => h y (by simp [hy]))]
    rfl

/-- getD of a mapped range below the bound. -/
theorem getD_map_range {n k : Nat} (g : Nat → Nat) (h : k < n) :
    ((List.range n).map g).getD k 0 = g k := by
  rw [List.getD_eq_getElem?_getD]
  simp [List.getElem?_map, List.getElem?_range h]

/-- getD of a replicated list below the bound. -/
theorem getD_replicate {α : Type} {n k : Nat} (a d : α) (h : k < n) :
    (List.replicate n a).getD k d = a := by
  rw [List.getD_eq_getElem?_getD]
  simp [List.getElem?_replicate, h]

/-- Full evaluation of Display._get_buffer on a 400 x 300 image with 8-bit
samples: every entry is defined and has the closed form of
get_buffer_byte_eval. -/
theorem get_buffer_eval (img : Image) (hw : img.width = 400) (hh : img.height = 300)
    (hp : ∀ x y, img.px x y < 256) :
    get_buffer img = some ((List.range (WIDTH * HEIGHT / 4)).map (fun n =>
      img.px ((n % 100 * 4 + 397) % 400) (n / 100) / 64 * 64 +
      img.px ((n % 100 * 4 + 398) % 400) (n / 100) / 64 * 16 +
      img.px ((n % 100 * 4 + 399) % 400) (n / 100) / 64 * 4 +
      img.px (n % 100 * 4) (n / 100) / 64)) := by
  apply mapM_eq_some_map
  intro n hn
  rw [List.mem_range] at hn
  simp only [WIDTH, HEIGHT] at hn
  norm_num at hn
  exact get_buffer_byte_eval img hw hh hp _ _ (by omega) (by omega)

/-- The plane loop on a constant packed buffer yields constant planes. -/
theorem get_planes_const (c a b : Nat) (h : displayByte c c = some (a, b)) :
    get_planes (List.replicate (WIDTH * HEIGHT / 4) c) =
    some (List.replicate (WIDTH * HEIGHT / 8) a, List.replicate (WIDTH * HEIGHT / 8) b) := by
  have hmm : (List.range (WIDTH * HEIGHT / 8)).mapM
      (fun i => displayByte ((List.replicate (WIDTH * HEIGHT / 4) c).getD (i * 2) 0)
        ((List.replicate (WIDTH * HEIGHT / 4) c).getD (i * 2 + 1) 0)) =
      some ((List.range (WIDTH * HEIGHT / 8)).map (fun _ => (a, b))) := by
    apply mapM_eq_some_map
    intro i hi
    rw [List.mem_range] at hi
    simp only [WIDTH, HEIGHT] at hi
    rw [getD_replicate c 0 (by simp only [WIDTH, HEIGHT]; omega),
        getD_replicate c 0 (by simp only [WIDTH, HEIGHT]; omega)]
    exact h
  simp only [get_planes, bind, Option.bind, hmm]
  simp [List.map_const]

/-- List.mapM over Option fails when the function fails on some element. -/
theorem mapM_none {α β : Type} (f : α → Option β) :
    ∀ l : List α, (∃ x ∈ l, f x = none) → l.mapM f = none := by
  intro l
  induction l with
  | nil => rintro ⟨x, hx, _⟩; cases hx
  | cons x xs ih =>
    rintro ⟨y, hy, hf⟩
    rw [List.mem_cons] at hy
    rw [List.mapM_cons]
    rcases hy with rfl | hy
    · rw [hf]; rfl
    · cases hx : f x
      · rfl
      · rw [ih ⟨y, hy, hf⟩]; rfl

/-- Mapping a constant over a range is replication. -/
theorem map_range_const {α : Type} (n : Nat) (c : α) :
    (List.range n).map (fun _ => c) = List.replicate n c := by
  simp [List.map_const]

/-- Packing an image whose every pixel has both top bits set gives the
constant buffer of 0xFF bytes. -/
theorem get_buffer_allwhite (img : Image) (hw : img.width = 400) (hh : img.height = 300)
    (hp : ∀ x y, 0xC0 ≤ img.px x y ∧ img.px x y < 256) :
    get_buffer img = some (List.replicate (WIDTH * HEIGHT / 4) 0xFF) := by
  rw [get_buffer_eval img hw hh (fun x y => (hp x y).2)]
  rw [← map_range_const (WIDTH * HEIGHT / 4) 0xFF]
  refine congrArg some (List.map_congr_left ?_)
  intro n _
  have d1 := hp ((n % 100 * 4 + 397) % 400) (n / 100)
  have d2 := hp ((n % 100 * 4 + 398) % 400) (n / 100)
  have d3 := hp ((n % 100 * 4 + 399) % 400) (n / 100)
  have d4 := hp (n % 100 * 4) (n / 100)
  omega

/-- Packing the all-zero image gives the constant zero buffer. -/
theorem get_buffer_allblack (img : Image) (hw : img.width = 400) (hh : img.height = 300)
    (hp : ∀ x y, img.px x y = 0) :
    get_buffer img = some (List.replicate (WIDTH * HEIGHT / 4) 0) := by
  rw [get_buffer_eval img hw hh (fun x y => by rw [hp]; omega)]
  rw [← map_range_const (WIDTH * HEIGHT / 4) 0]
  refine congrArg some (List.map_congr_left ?_)
  intro n _
  simp [hp]

/-- Flattening singleton SPI writes is mapping the write constructor. -/
theorem flatten_writebyte : ∀ l : List Nat, (l.map writebyte).flatten = l.map Event.spiWrite := by
  intro l
  induction l with
  | nil => rfl
  | cons x xs ih => simp [writebyte, ih]

/-- A list of SPI writes contains no handshake marker. -/
theorem count_wait_spi : ∀ l : List Nat, (l.map Event.spiWrite).count Event.waitBusy = 0 := by
  intro l
  induction l with
  | nil => rfl
  | cons x xs ih =>
    rw [List.map_cons, List.count_cons, ih]
    simp

/-- Running a concatenation of operation lists concatenates the traces, with
the first error winning. -/
theorem run_append (l1 l2 : List Op) :
    run (l1 ++ l2) =
      match run l1 with
      | .error e => .error e
      | .ok t1 =>
        match run l2 with
        | .error e => .error e
        | .ok t2 => .ok (t1 ++ t2) := by
  induction l1 with
  | nil =>
    cases h : run l2 <;> simp [run, h]
  | cons op rest ih =>
    rw [show (op :: rest) ++ l2 = op :: (rest ++ l2) from rfl]
    rw [run, run, ih]
    cases hs : step op
    · rfl
    · cases h1 : run rest
      · rfl
      · cases h2 : run l2
        · rfl
        · simp [List.append_assoc]

/-- A busy line that never reads ready starves the polling loop of any
amount of fuel. -/
theorem wait_loop_never (busy : Nat → Nat) (h : ∀ k, busy k = 0) :
    ∀ fuel p s, wait_loop busy p s fuel = none := by
  intro fuel
  induction fuel with
  | zero => intro p s; rfl
  | succ n ih => intro p s; simp [wait_loop, h p, ih]

/-- Evaluation of the polling loop when the busy line first reads ready at
poll m: one LED toggle and one 50 ms delay per unready poll, the LED values
alternating away from the entry state. -/
theorem wait_loop_eval (busy : Nat → Nat) :
    ∀ m p s fuel, (∀ q < m, busy (p + q) = 0) → busy (p + m) ≠ 0 → m < fuel →
    wait_loop busy p s fuel =
      some ((List.range m).map
        (fun t => [Event.line LED (if t % 2 = 0 then s ^^^ 1 else s), Event.sleepMs 50])).flatten := by
  intro m
  induction m with
  | zero =>
    intro p s fuel h0 hb hf
    match fuel, hf with
    | fuel + 1, _ =>
      simp only [wait_loop]
      rw [if_neg (by simpa using hb)]
      rfl
  | succ m ih =>
    intro p s fuel h0 hb hf
    match fuel, hf with
    | fuel + 1, hf =>
      simp only [wait_loop]
      rw [if_pos (show busy p = 0 by simpa using h0 0 (by omega))]
      rw [ih (p + 1) (s ^^^ 1) fuel
        (fun q hq => by
          have hq2 : p + 1 + q = p + (q + 1) := by omega
          rw [hq2]; exact h0 (q + 1) (by omega))
        (by have hpm : p + 1 + m = p + (m + 1) := by omega
            rw [hpm]; exact hb) (by omega)]
      have hshift : (List.range m).map
          (fun t => [Event.line LED (if t % 2 = 0 then (s ^^^ 1) ^^^ 1 else s ^^^ 1), Event.sleepMs 50]) =
          (List.range m).map
          (fun t => [Event.line LED (if (t + 1) % 2 = 0 then s ^^^ 1 else s), Event.sleepMs 50]) := by
        apply List.map_congr_left
        intro t ht
        have hx : (s ^^^ 1) ^^^ 1 = s := Nat.xor_cancel_right 1 s
        by_cases hpar : t % 2 = 0
        · rw [if_pos hpar, if_neg (by omega), hx]
        · rw [if_neg hpar, if_pos (by omega)]
      rw [hshift]
      rw [List.range_succ_eq_map]
      simp only [List.map_cons, List.map_map, List.flatten_cons, Function.comp]
      rfl

/-- Display._wait never returns when the busy line never reads ready. -/
theorem wait_never (busy : Nat → Nat) (h : ∀ k, busy k = 0) (fuel : Nat) :
    wait busy fuel = none := by
  simp [wait, wait_loop_never busy h fuel 0 0]

/-- Evaluation of Display._wait when the busy line first reads ready at
poll m. -/
theorem wait_eval (busy : Nat → Nat) (m fuel : Nat) (h0 : ∀ q < m, busy q = 0)
    (hb : busy m ≠ 0) (hf : m < fuel) :
    wait busy fuel =
      some (output LED 0 ++ delay 50 ++
        ((List.range m).map
          (fun t => [Event.line LED (if t % 2 = 0 then 1 else 0), Event.sleepMs 50])).flatten ++
        output LED 1 ++ delay 50) := by
  have h := wait_loop_eval busy m 0 0 fuel (fun q hq => by simpa using h0 q hq) (by simpa using hb) hf
  simp only [wait, h]
  norm_num

/-- C1: the packed byte at index (i + j*400)/4 does NOT pack columns i..i+3;
at row 0, group start column 4 of imgC1 the code packs columns 1..4 giving 3,
while the claimed window i..i+3 would give 192. -/
theorem claim_C1_counterexample :
    ¬ (∀ buf, get_buffer imgC1 = some buf →
        buf.getD (bufferIndex 4 0) 0 =
          imgC1.px 4 0 / 64 * 64 + imgC1.px 5 0 / 64 * 16 +
          imgC1.px 6 0 / 64 * 4 + imgC1.px 7 0 / 64) := by
  intro hclaim
  have hp : ∀ x y, imgC1.px x y < 256 := by
    intro x y
    simp only [imgC1]
    split <;> omega
  have h := hclaim _ (get_buffer_eval imgC1 rfl rfl hp)
  rw [show bufferIndex 4 0 = 1 from rfl] at h
  rw [getD_map_range _ (by simp only [WIDTH, HEIGHT]; omega)] at h
  norm_num [imgC1] at h

/-- C1 (amended): the packed byte at index (i + j*400)/4 packs the top two
bits of the pixels at columns i-3, i-2, i-1, i of row j (negative columns
wrapping to the end of the same row), most significant first, at bit offsets
6, 4, 2, 0. -/
theorem claim_C1_amended (img : Image) (hw : img.width = 400) (hh : img.height = 300)
    (hp : ∀ x y, img.px x y < 256) (i j : Nat) (hi : i < 400) (hj : j < 300)
    (h4 : i % 4 = 0) (buf : List Nat) (hbuf : get_buffer img = some buf) :
    buf.getD (bufferIndex i j) 0 =
      img.px ((i + 397) % 400) j / 64 * 64 + img.px ((i + 398) % 400) j / 64 * 16 +
      img.px ((i + 399) % 400) j / 64 * 4 + img.px i j / 64 := by
  rw [get_buffer_eval img hw hh hp] at hbuf
  have hb := Option.some.inj hbuf
  rw [← hb]
  rw [getD_map_range _ (show bufferIndex i j < WIDTH * HEIGHT / 4 by
    simp only [bufferIndex, WIDTH, HEIGHT]; omega)]
  have e1 : bufferIndex i j % 100 * 4 = i := by simp only [bufferIndex, WIDTH]; omega
  have e2 : bufferIndex i j / 100 = j := by simp only [bufferIndex, WIDTH]; omega
  rw [e1, e2]

/-- C1 witness: the amended claim applied to the constant-137 image at the
first group of the first row. -/
theorem claim_C1_witness :
    ((List.range (WIDTH * HEIGHT / 4)).map (fun n =>
      imgGray.px ((n % 100 * 4 + 397) % 400) (n / 100) / 64 * 64 +
      imgGray.px ((n % 100 * 4 + 398) % 400) (n / 100) / 64 * 16 +
      imgGray.px ((n % 100 * 4 + 399) % 400) (n / 100) / 64 * 4 +
      imgGray.px (n % 100 * 4) (n / 100) / 64)).getD (bufferIndex 0 0) 0 =
      imgGray.px ((0 + 397) % 400) 0 / 64 * 64 + imgGray.px ((0 + 398) % 400) 0 / 64 * 16 +
      imgGray.px ((0 + 399) % 400) 0 / 64 * 4 + imgGray.px 0 0 / 64 :=
  claim_C1_amended imgGray rfl rfl (fun x y => by norm_num [imgGray]) 0 0 (by omega) (by omega)
    (by omega) _ (get_buffer_eval imgGray rfl rfl (fun x y => by norm_num [imgGray]))

/-- C2: the mask table is total and exact on 8-bit values (plane A bit =
bit 7, plane B bit = bit 6, which is the table White (1,1), Light (1,0),
Dark (0,1), Black (0,0) on the top-two-bit quantization), and the display
loop accumulates the eight bit pairs of two packed bytes into one plane A
byte and one plane B byte, most significant bit first in scan order. -/
theorem claim_C2 :
    (∀ d < 256, get_masks d = some (d >>> 7 &&& 1, d >>> 6 &&& 1)) ∧
    (∀ c1 < 256, ∀ c2 < 256, displayByte c1 c2 =
      some (128 * (c1 >>> 7 &&& 1) + 64 * (c1 >>> 5 &&& 1) + 32 * (c1 >>> 3 &&& 1) +
            16 * (c1 >>> 1 &&& 1) + 8 * (c2 >>> 7 &&& 1) + 4 * (c2 >>> 5 &&& 1) +
            2 * (c2 >>> 3 &&& 1) + (c2 >>> 1 &&& 1),
            128 * (c1 >>> 6 &&& 1) + 64 * (c1 >>> 4 &&& 1) + 32 * (c1 >>> 2 &&& 1) +
            16 * (c1 &&& 1) + 8 * (c2 >>> 6 &&& 1) + 4 * (c2 >>> 4 &&& 1) +
            2 * (c2 >>> 2 &&& 1) + (c2 &&& 1))) :=
  ⟨gm_char, fun c1 h1 c2 h2 => displayByte_eval c1 c2 h1 h2⟩

/-- C2 witness: the table at 0x9A (Light) and the accumulation on the
concrete packed bytes 0xE4, 0x1B. -/
theorem claim_C2_witness :
    get_masks 0x9A = some (0x9A >>> 7 &&& 1, 0x9A >>> 6 &&& 1) ∧
    displayByte 0xE4 0x1B =
      some (128 * (0xE4 >>> 7 &&& 1) + 64 * (0xE4 >>> 5 &&& 1) + 32 * (0xE4 >>> 3 &&& 1) +
            16 * (0xE4 >>> 1 &&& 1) + 8 * (0x1B >>> 7 &&& 1) + 4 * (0x1B >>> 5 &&& 1) +
            2 * (0x1B >>> 3 &&& 1) + (0x1B >>> 1 &&& 1),
            128 * (0xE4 >>> 6 &&& 1) + 64 * (0xE4 >>> 4 &&& 1) + 32 * (0xE4 >>> 2 &&& 1) +
            16 * (0xE4 &&& 1) + 8 * (0x1B >>> 6 &&& 1) + 4 * (0x1B >>> 4 &&& 1) +
            2 * (0x1B >>> 2 &&& 1) + (0x1B &&& 1)) :=
  ⟨claim_C2.1 0x9A (by norm_num), claim_C2.2 0xE4 (by norm_num) 0x1B (by norm_num)⟩

/-- C3: clear does send the same precomputed buffer to 0x10 and 0x13 and
then refresh, but that buffer is 15000 copies of the WHITE shade constant
0xC0, not the all-1-bits 0xFF plane that encoding an all-white image
produces; the two differ. -/
theorem claim_C3_code_eval :
    clear = send 0x10 EMPTY ++ send 0x13 EMPTY ++ send 0x12 [] ∧
    EMPTY = List.replicate (WIDTH * HEIGHT / 8) 0xC0 ∧
    get_buffer imgWhite = some (List.replicate (WIDTH * HEIGHT / 4) 0xFF) ∧
    get_planes (List.replicate (WIDTH * HEIGHT / 4) 0xFF) =
      some (List.replicate (WIDTH * HEIGHT / 8) 0xFF, List.replicate (WIDTH * HEIGHT / 8) 0xFF) ∧
    EMPTY ≠ List.replicate (WIDTH * HEIGHT / 8) 0xFF := by
  refine ⟨rfl, rfl, get_buffer_allwhite imgWhite rfl rfl (fun x y => by norm_num [imgWhite]),
    get_planes_const 0xFF 0xFF 0xFF (by decide), ?_⟩
  intro hEq
  have h0 := congrArg (fun l => l.getD 0 0) hEq
  simp only [EMPTY] at h0
  rw [getD_replicate WHITE 0 (by simp only [WIDTH, HEIGHT]; omega),
      getD_replicate 0xFF 0 (by simp only [WIDTH, HEIGHT]; omega)] at h0
  norm_num [WHITE] at h0

/-- C4: the wake sequence is the reset pulse followed by exactly the 13
fixed transactions, in order, with the power-on payload empty and each of
the five waveform tables 42 bytes, and any successful run extends by the
same byte-for-byte wake trace. -/
theorem claim_C4 :
    wake = reset ++ (wake_cmds.map (fun p => send p.1 p.2)).flatten ∧
    wake_cmds.map Prod.fst =
      [0x01, 0x06, 0x04, 0x00, 0x30, 0x61, 0x82, 0x50, 0x20, 0x21, 0x22, 0x23, 0x24] ∧
    wake_cmds.map (fun p => p.2.length) = [5, 3, 0, 1, 1, 4, 1, 1, 42, 42, 42, 42, 42] ∧
    ∀ l t, run l = .ok t → run (l ++ [Op.wake]) = .ok (t ++ wake) := by
  refine ⟨rfl, rfl, rfl, ?_⟩
  intro l t h
  rw [run_append, h]
  dsimp only
  rw [show run [Op.wake] = Except.ok (wake ++ []) from rfl, List.append_nil]

/-- C4 witness: waking after a sleep emits exactly the wake trace again. -/
theorem claim_C4_witness :
    run ([Op.sleep] ++ [Op.wake]) = .ok (sleep ++ wake) :=
  claim_C4.2.2.2 [Op.sleep] sleep rfl


/-- Evaluation of display through given buffer and plane values. -/
theorem display_eval (img : Image) (buf d1 d2 : List Nat)
    (hb : get_buffer img = some buf) (hpl : get_planes buf = some (d1, d2)) :
    display (some img) = .ok (send 0x10 d1 ++ send 0x13 d2 ++ send 0x12 []) := by
  unfold display
  dsimp only
  rw [hb]
  dsimp only
  rw [hpl]

/-- C5: an image whose every pixel has both top bits set displays as
all-0xFF planes on both memory opcodes, and the all-zero image displays as
all-0x00 planes. -/
theorem claim_C5 :
    (∀ img : Image, img.width = 400 → img.height = 300 →
      (∀ x y, 0xC0 ≤ img.px x y ∧ img.px x y < 256) →
      display (some img) = .ok (send 0x10 (List.replicate (WIDTH * HEIGHT / 8) 0xFF) ++
        send 0x13 (List.replicate (WIDTH * HEIGHT / 8) 0xFF) ++ send 0x12 [])) ∧
    (∀ img : Image, img.width = 400 → img.height = 300 → (∀ x y, img.px x y = 0) →
      display (some img) = .ok (send 0x10 (List.replicate (WIDTH * HEIGHT / 8) 0) ++
        send 0x13 (List.replicate (WIDTH * HEIGHT / 8) 0) ++ send 0x12 [])) :=
  ⟨fun img hw hh hp => display_eval img _ _ _ (get_buffer_allwhite img hw hh hp)
      (get_planes_const 0xFF 0xFF 0xFF (by decide)),
   fun img hw hh hp => display_eval img _ _ _ (get_buffer_allblack img hw hh hp)
      (get_planes_const 0 0 0 (by decide))⟩

/-- C5 witness: the all-white and all-black constant images. -/
theorem claim_C5_witness :
    display (some imgWhite) = .ok (send 0x10 (List.replicate (WIDTH * HEIGHT / 8) 0xFF) ++
      send 0x13 (List.replicate (WIDTH * HEIGHT / 8) 0xFF) ++ send 0x12 []) ∧
    display (some imgBlack) = .ok (send 0x10 (List.replicate (WIDTH * HEIGHT / 8) 0) ++
      send 0x13 (List.replicate (WIDTH * HEIGHT / 8) 0) ++ send 0x12 []) :=
  ⟨claim_C5.1 imgWhite rfl rfl (fun x y => by norm_num [imgWhite]),
   claim_C5.2 imgBlack rfl rfl (fun x y => rfl)⟩

/-- C6: display performs no size validation: the mis-sized 401 x 300 image
is neither rejected nor kept from the bus; it is encoded and transmitted in
full. -/
theorem claim_C6_counterexample :
    (img401.width, img401.height) ≠ (400, 300) ∧
    display (some img401) = .ok (send 0x10 (List.replicate (WIDTH * HEIGHT / 8) 0) ++
      send 0x13 (List.replicate (WIDTH * HEIGHT / 8) 0) ++ send 0x12 []) := by
  constructor
  · norm_num [img401]
  · have hgp : ∀ x y : Int, -401 ≤ x → x < 401 → 0 ≤ y → y < 300 →
        getpixel img401 x y = some 0 := by
      intro x y h1 h2 h3 h4
      simp only [getpixel, img401]
      split_ifs <;> first | rfl | omega
    have hbyte : ∀ n ∈ List.range (WIDTH * HEIGHT / 4),
        get_buffer_byte img401 (n % 100 * 4) (n / 100) = some 0 := by
      intro n hn
      rw [List.mem_range] at hn
      simp only [WIDTH, HEIGHT] at hn
      simp only [get_buffer_byte, bind, Option.bind]
      rw [hgp _ _ (by omega) (by omega) (by omega) (by omega),
          hgp _ _ (by omega) (by omega) (by omega) (by omega),
          hgp _ _ (by omega) (by omega) (by omega) (by omega),
          hgp _ _ (by omega) (by omega) (by omega) (by omega)]
      rfl
    have hbuf : get_buffer img401 = some (List.replicate (WIDTH * HEIGHT / 4) 0) := by
      unfold get_buffer
      rw [mapM_eq_some_map _ (fun _ => 0) _ hbyte, map_range_const]
    exact display_eval img401 _ _ _ hbuf (get_planes_const 0 0 0 (by decide))

/-- C6 (amended): only a None image is rejected immediately, with the
TypeError and no hardware traffic; there is no dimension check, so a
too-small image fails only when a pixel access goes out of range (still
before any transmission), and an oversized image is not rejected at all. -/
theorem claim_C6_amended :
    display none = .error Err.noneImage ∧
    display (some img10) = .error Err.indexOutOfRange := by
  refine ⟨rfl, ?_⟩
  have hfail : get_buffer_byte img10 (3 % 100 * 4) (3 / 100) = none := by decide
  have hb : get_buffer img10 = none :=
    mapM_none _ _ ⟨3, List.mem_range.2 (by norm_num [WIDTH, HEIGHT]), hfail⟩
  unfold display
  dsimp only
  rw [hb]

/-- C7: the reset transition drives the Reset line high, then low, then
high, not the low-high-low-high sequence of the claim. -/
theorem claim_C7_counterexample :
    reset.filterMap (fun e => match e with
      | Event.line p v => if p = RESET then some v else none
      | _ => none) = [1, 0, 1] ∧ ([1, 0, 1] : List Nat) ≠ [0, 1, 0, 1] :=
  ⟨rfl, by decide⟩

/-- C7 (amended): the reset transition drives Reset high for 200 ms, then
low for 200 ms, then high for 200 ms, using three discrete delays. -/
theorem claim_C7_amended :
    reset = [Event.line RESET 1, Event.sleepMs 200, Event.line RESET 0, Event.sleepMs 200,
      Event.line RESET 1, Event.sleepMs 200] := rfl

/-- C8: the handshake lowers the LED and settles 50 ms, toggles the LED once
per 50 ms poll while busy reads 0, and after a ready poll raises the LED and
delays once more; against a busy line that never reads ready it never
completes, for any fuel bound. -/
theorem claim_C8 :
    (∀ busy : Nat → Nat, ∀ m fuel : Nat, (∀ q < m, busy q = 0) → busy m ≠ 0 → m < fuel →
      wait busy fuel = some (output LED 0 ++ delay 50 ++
        ((List.range m).map (fun t => [Event.line LED (if t % 2 = 0 then 1 else 0),
          Event.sleepMs 50])).flatten ++ output LED 1 ++ delay 50)) ∧
    (∀ busy : Nat → Nat, (∀ k, busy k = 0) → ∀ fuel, wait busy fuel = none) :=
  ⟨wait_eval, wait_never⟩

/-- C8 witness: a busy line ready from the third poll on, and one that is
never ready. -/
theorem claim_C8_witness :
    wait busyAfter2 4 = some (output LED 0 ++ delay 50 ++
      ((List.range 2).map (fun t => [Event.line LED (if t % 2 = 0 then 1 else 0),
        Event.sleepMs 50])).flatten ++ output LED 1 ++ delay 50) ∧
    wait busyNever 9 = none :=
  ⟨claim_C8.1 busyAfter2 2 4 (by decide) (by decide) (by decide),
   claim_C8.2 busyNever (fun k => rfl) 9⟩

/-- C9: a send transaction is command mode and enable low, the command byte,
data mode high, the payload bytes in order, enable high, and exactly one
handshake wait for the whole transaction. -/
theorem claim_C9 (command : Nat) (data : List Nat) :
    send command data =
      [Event.line MODE 0, Event.line ENABLE 0, Event.spiWrite command, Event.line MODE 1] ++
      data.map Event.spiWrite ++ [Event.line ENABLE 1, Event.waitBusy] ∧
    (send command data).count Event.waitBusy = 1 := by
  have h : send command data =
      [Event.line MODE 0, Event.line ENABLE 0, Event.spiWrite command, Event.line MODE 1] ++
      data.map Event.spiWrite ++ [Event.line ENABLE 1, Event.waitBusy] := by
    simp [send, output, writebyte, flatten_writebyte]
  refine ⟨h, ?_⟩
  rw [h]
  simp [List.count_append, count_wait_spi, List.count_cons, List.count_nil]

/-- C9 witness: the transaction for opcode 0x10 with a two-byte payload. -/
theorem claim_C9_witness :
    send 0x10 [0xAB, 0xCD] =
      [Event.line MODE 0, Event.line ENABLE 0, Event.spiWrite 0x10, Event.line MODE 1] ++
      [0xAB, 0xCD].map Event.spiWrite ++ [Event.line ENABLE 1, Event.waitBusy] ∧
    (send 0x10 [0xAB, 0xCD]).count Event.waitBusy = 1 :=
  claim_C9 0x10 [0xAB, 0xCD]

/-- C10: no public operation is gated on a software state: after any
successful history, clear, sleep and wake append their fixed traces and
succeed, and display behaves exactly as its history-free function. -/
theorem claim_C10 (l : List Op) (t : List Event) (h : run l = .ok t) :
    run (l ++ [Op.clear]) = .ok (t ++ clear) ∧
    run (l ++ [Op.sleep]) = .ok (t ++ sleep) ∧
    run (l ++ [Op.wake]) = .ok (t ++ wake) ∧
    ∀ image : Option Image, run (l ++ [Op.display image]) =
      (match display image with
       | .error e => Except.error e
       | .ok u => Except.ok (t ++ u)) := by
  refine ⟨?_, ?_, ?_, ?_⟩
  · rw [run_append, h]
    dsimp only
    rw [show run [Op.clear] = Except.ok (clear ++ []) from rfl, List.append_nil]
  · rw [run_append, h]
    dsimp only
    rw [show run [Op.sleep] = Except.ok (sleep ++ []) from rfl, List.append_nil]
  · rw [run_append, h]
    dsimp only
    rw [show run [Op.wake] = Except.ok (wake ++ []) from rfl, List.append_nil]
  · intro image
    rw [run_append, h]
    dsimp only
    cases hd : display image with
    | error e =>
      have : run [Op.display image] = .error e := by
        simp [run, step, hd]
      rw [this]
    | ok u =>
      have : run [Op.display image] = .ok (u ++ []) := by
        simp [run, step, hd]
      rw [this, List.append_nil]

/-- C10 witness: clear right after sleep raises nothing and transmits its
fixed trace. -/
theorem claim_C10_witness :
    run ([Op.sleep] ++ [Op.clear]) = .ok (sleep ++ clear) :=
  (claim_C10 [Op.sleep] sleep rfl).1

end EInk
